import Mathlib

/-
  Verification development for the PSX Breakout Scanner repository.

  The classification logic lives in `src/app.py` (`calculate_breakout_stats`,
  `is_valid_symbol`, `is_weekend`, `get_previous_week_data`,
  `get_previous_month_data`, `main`) and the feed loader in
  `src/data_loader.py` (`fetch_psx`).  We shallowly embed those functions here:
  pandas DataFrames become lists of rows, Python floats become ℚ, raw display
  cells become an explicit `Cell` datatype capturing how each Python parsing
  expression behaves on them, and Python exceptions become `Except`/`Option`.
-/

namespace PSX

/--
A raw display cell of the scraped market table.  In `fetch_market_data`
every cell is a stripped string; after pandas operations a cell may also be a
float NaN (whose `str()` is `"nan"`).  The four constructors classify every
cell by how Python's parsing expressions behave on it:
* `empty` — the empty string `""` (falsy; `float("")` would raise);
* `num q` — a string that parses as a float once thousands separators are
  removed (value `q`);
* `nan`   — a float NaN object (truthy; has no `.replace`, so
  `cell.replace(",", "")` raises `AttributeError`, while `str(cell)` is
  `"nan"` and `float("nan")` succeeds);
* `bad`   — any other non-empty string on which `float` raises
  (e.g. `"-"`, `"N/A"`).
-/
inductive Cell where
  | empty : Cell
  | num : ℚ → Cell
  | nan : Cell
  | bad : Cell
deriving DecidableEq, Repr

/-- One row of the scraped market table (`fetch_market_data` columns
`SYMBOL, LDCP, OPEN, HIGH, LOW, CLOSE, VOLUME`).  `openPrice` renders the
Python column `OPEN` (`open` is a Lean keyword). -/
structure Row where
  symbol : String
  ldcp : Cell
  openPrice : Cell
  high : Cell
  low : Cell
  close : Cell
  volume : Cell
deriving DecidableEq, Repr

/-- The classification outcomes appearing in `calculate_breakout_stats`:
`breakout` = "▲▲ … Breakout", `breakdown` = "▼▼ … Breakdown",
`withinRange` = "– … Within Range", `dataError` = "– … Data Error",
`na` = the initial "N/A". -/
inductive Status where
  | breakout : Status
  | breakdown : Status
  | withinRange : Status
  | dataError : Status
  | na : Status
deriving DecidableEq, Repr

/--
Embeds `float(cell.replace(',', '')) if cell else 0`, the expression used for
today's row fields `CLOSE`, `HIGH`, `LOW`, `LDCP` and `OPEN` (app.py lines
199–202, 300): empty is falsy and yields `0` without calling `float`; a
numeric string yields its value; a NaN object or an unparseable string raises
(`none`, caught by the surrounding handler or propagated).
-/
def parseToday : Cell → Option ℚ
  | Cell.empty => some 0
  | Cell.num q => some q
  | Cell.nan => none
  | Cell.bad => none

/--
Embeds `float(cell.replace(',', '')) if cell else "N/A"`, the expression used
for the previous-day row's `HIGH`/`LOW` (app.py lines 221–222).
`Except.error` models a raised exception (caught at line 231, producing
"– Daily Data Error"); `Except.ok none` models the `"N/A"` sentinel produced
for an empty cell without raising.
-/
def parsePrevHL : Cell → Except Unit (Option ℚ)
  | Cell.empty => Except.ok none
  | Cell.num q => Except.ok (some q)
  | Cell.nan => Except.error ()
  | Cell.bad => Except.error ()

/--
Embeds the weekly/monthly aggregation lambda
`lambda x: float(x.replace(',', '')) if str(x) != 'nan' else 0`
(app.py lines 240–243 and 260–263): a NaN (`str(x) == 'nan'`) yields `0`;
a numeric string yields its value; an empty or otherwise unparseable string
raises (`Except.error`, caught at lines 251/271 producing "… Data Error").
-/
def parseWindowHL : Cell → Except Unit ℚ
  | Cell.empty => Except.error ()
  | Cell.num q => Except.ok q
  | Cell.nan => Except.ok 0
  | Cell.bad => Except.error ()

/-- Embeds the volume branch (app.py lines 205–209): only a `bad` cell makes
`float(str(v).replace(',', ''))` raise; `str(nan)` is `"nan"` and
`float("nan")` succeeds, and an empty cell takes the `else` branch. -/
def volumeOk : Cell → Bool
  | Cell.bad => false
  | _ => true

/-- Python's `str.upper()`, character by character (kernel-evaluable, unlike
`String.toUpper`, which recurses on byte positions). -/
def pyUpper (s : String) : String := ⟨s.data.map Char.toUpper⟩

/-- Python's `str.strip()`: remove leading and trailing whitespace. -/
def pyStrip (s : String) : String :=
  ⟨((s.data.dropWhile Char.isWhitespace).reverse.dropWhile
      Char.isWhitespace).reverse⟩

/-- Embeds `data[data['SYMBOL'].str.upper() == symbol.upper()]`: the rows of
`data` whose upper-cased symbol equals the upper-cased query symbol. -/
def findRows (data : List Row) (symbol : String) : List Row :=
  data.filter (fun r => pyUpper r.symbol == pyUpper symbol)

/-- Embeds the pandas `.apply` of a parsing lambda over a column: the first
raised exception aborts the whole aggregation. -/
def mapExcept (f : α → Except Unit β) : List α → Except Unit (List β)
  | [] => Except.ok []
  | a :: as =>
    match f a with
    | Except.error _ => Except.error ()
    | Except.ok b =>
      match mapExcept f as with
      | Except.error _ => Except.error ()
      | Except.ok bs => Except.ok (b :: bs)

/-- `.max()` of a (nonempty in all uses) list of parsed values. -/
def maxQ : List ℚ → ℚ
  | [] => 0
  | a :: as => as.foldl max a

/-- `.min()` of a (nonempty in all uses) list of parsed values. -/
def minQ : List ℚ → ℚ
  | [] => 0
  | a :: as => as.foldl min a

/--
Embeds the daily-breakout block (app.py lines 214–233) *before* the LDCP
fallback: `na` is the untouched initial `"N/A"` (no previous-day data, no
matching row, or an `"N/A"` sentinel from an empty high/low); `dataError`
models the `except` branch (line 233) triggered by a raising parse.
The comparison uses the first matching row (`iloc[0]`).
-/
def dailyStatusRaw (prevDay : Option (List Row)) (symbol : String)
    (todayClose : ℚ) : Status :=
  match prevDay with
  | none => Status.na
  | some data =>
    match findRows data symbol with
    | [] => Status.na
    | r :: _ =>
      match parsePrevHL r.high with
      | Except.error _ => Status.dataError
      | Except.ok hOpt =>
        match parsePrevHL r.low with
        | Except.error _ => Status.dataError
        | Except.ok lOpt =>
          match hOpt, lOpt with
          | some ph, some pl =>
            if todayClose > ph then Status.breakout
            else if todayClose < pl then Status.breakdown
            else Status.withinRange
          | _, _ => Status.na

/-- Embeds the LDCP fallback comparison (app.py lines 277–283).  The `except`
branch at line 285 is unreachable: comparing two floats cannot raise. -/
def fallbackStatus (todayClose todayLdcp : ℚ) : Status :=
  if todayClose > todayLdcp then Status.breakout
  else if todayClose < todayLdcp then Status.breakdown
  else Status.withinRange

/-- Embeds the complete daily status: the raw block followed by
`if daily_status == "N/A":` LDCP fallback (app.py lines 276–285). -/
def dailyStatus (prevDay : Option (List Row)) (symbol : String)
    (todayClose todayLdcp : ℚ) : Status :=
  match dailyStatusRaw prevDay symbol todayClose with
  | Status.na => fallbackStatus todayClose todayLdcp
  | s => s

/--
Embeds the weekly block (app.py lines 235–253); the monthly block (lines
255–273) is textually identical up to the window argument and the status
labels, so the same function models both.
-/
def windowStatus (window : Option (List Row)) (symbol : String)
    (todayClose : ℚ) : Status :=
  match window with
  | none => Status.na
  | some data =>
    match findRows data symbol with
    | [] => Status.na
    | rows =>
      match mapExcept (fun r => parseWindowHL r.high) rows with
      | Except.error _ => Status.dataError
      | Except.ok highs =>
        match mapExcept (fun r => parseWindowHL r.low) rows with
        | Except.error _ => Status.dataError
        | Except.ok lows =>
          if todayClose > maxQ highs then Status.breakout
          else if todayClose < minQ lows then Status.breakdown
          else Status.withinRange

/-- The futures-contract month suffixes (app.py lines 21–22). -/
def MONTH_CODES : List String :=
  ["-JAN", "-FEB", "-MAR", "-APR", "-MAY", "-JUN",
   "-JUL", "-AUG", "-SEP", "-OCT", "-NOV", "-DEC"]

/-- Plain substring test on character lists, embedding Python's
`month in symbol`. -/
def listIsInfix (needle : List Char) : List Char → Bool
  | [] => needle.isEmpty
  | c :: cs => needle.isPrefixOf (c :: cs) || listIsInfix needle cs

/-- Embeds `is_valid_symbol` (app.py lines 70–76): the trimmed, upper-cased
symbol must be a key of the metadata mapping and contain no futures month
suffix.  The metadata mapping is modelled by its (canonical) key list; the
`except: return False` branch is unreachable for string inputs. -/
def isValidSymbol (symbol : String) (symbolsData : List String) : Bool :=
  let s := pyUpper (pyStrip symbol)
  symbolsData.contains s &&
    !(MONTH_CODES.any (fun m => listIsInfix m.data s.data))

/--
Embeds the `try` block parsing today's row (app.py lines 198–212), returning
`(close, high, low, ldcp)`; `none` models a raised exception, which makes the
loop `continue`, skipping the symbol.  The volume branch participates in the
same `try`.
-/
def parseTodayRow (r : Row) : Option (ℚ × ℚ × ℚ × ℚ) := do
  let c ← parseToday r.close
  let h ← parseToday r.high
  let l ← parseToday r.low
  let d ← parseToday r.ldcp
  if volumeOk r.volume then some (c, h, l, d) else none

/-- The fields of one appended result record that carry classification
content (app.py lines 293–313); display-only formatting (company/sector/KMI
echo, comma formatting of numbers) is presentation and not modelled. -/
structure ResultRec where
  symbol : String
  close : ℚ
  high : ℚ
  low : ℚ
  ldcp : ℚ
  openPrice : ℚ
  daily : Status
  weekly : Status
  monthly : Status
deriving DecidableEq, Repr

/--
Embeds the per-row loop of `calculate_breakout_stats` (app.py lines 181–315).
A failing today-parse skips the row (`continue`, line 212).  The `OPEN` cell
is parsed *outside* any `try` while appending (line 300), so an unparseable
`OPEN` raises out of the whole function: modelled by `Except.error ()`.
-/
def calculateBreakoutStats (todayData : List Row)
    (prevDay prevWeek prevMonth : Option (List Row)) :
    Except Unit (List ResultRec) :=
  match todayData with
  | [] => Except.ok []
  | row :: rest =>
    match parseTodayRow row with
    | none => calculateBreakoutStats rest prevDay prevWeek prevMonth
    | some (c, h, l, d) =>
      match parseToday row.openPrice with
      | none => Except.error ()
      | some o =>
        match calculateBreakoutStats rest prevDay prevWeek prevMonth with
        | Except.error e => Except.error e
        | Except.ok tail =>
          Except.ok
            ({ symbol := row.symbol, close := c, high := h, low := l,
               ldcp := d, openPrice := o,
               daily := dailyStatus prevDay row.symbol c d,
               weekly := windowStatus prevWeek row.symbol c,
               monthly := windowStatus prevMonth row.symbol c } :: tail)

/-- Embeds `main`'s composition (app.py line 553 then 580): filter today's
snapshot to valid symbols, then run `calculate_breakout_stats`. -/
def runPipeline (snapshot : List Row) (symbolsData : List String)
    (prevDay prevWeek prevMonth : Option (List Row)) :
    Except Unit (List ResultRec) :=
  calculateBreakoutStats
    (snapshot.filter (fun r => isValidSymbol r.symbol symbolsData))
    prevDay prevWeek prevMonth

/-! ### Calendar arithmetic

For week and trading-day arithmetic, a date is an integer count of days from
a fixed epoch chosen to fall on a Monday, so Python's
`date.weekday()` (Monday = 0 … Sunday = 6) is the residue mod 7 and
`timedelta(days = n)` is integer addition. -/

/-- Python's `date.weekday()`: Monday = 0 … Sunday = 6. -/
def weekday (d : ℤ) : ℤ := d % 7

/-- Embeds `is_weekend` (app.py lines 78–80): `date.weekday() >= 5`. -/
def isWeekend (d : ℤ) : Bool := 5 ≤ weekday d

/-- Monday of the calendar week containing `d`. -/
def weekStart (d : ℤ) : ℤ := d - weekday d

/-- Embeds the span computation of `get_previous_week_data` (app.py lines
134–135): `prev_monday = target - timedelta(days=target.weekday() + 7)`;
`prev_friday = prev_monday + timedelta(days=4)`. -/
def prevWeekSpan (d : ℤ) : ℤ × ℤ :=
  let monday := d - (weekday d + 7)
  (monday, monday + 4)

/-! For month arithmetic we need the actual year/month/day structure, since
`get_previous_month_data` uses `date.replace(day=1)` and subtracts one day
across a month boundary. -/

/-- A Gregorian calendar date. -/
structure Date where
  year : ℤ
  month : ℕ
  day : ℕ
deriving DecidableEq, Repr

/-- Gregorian leap-year rule, as implemented by Python's `datetime`. -/
def isLeapYear (y : ℤ) : Bool :=
  (y % 4 == 0 && y % 100 != 0) || y % 400 == 0

/-- Number of days of month `m` of year `y` (months 1–12). -/
def daysInMonth (y : ℤ) (m : ℕ) : ℕ :=
  if m = 2 then (if isLeapYear y then 29 else 28)
  else if m = 4 ∨ m = 6 ∨ m = 9 ∨ m = 11 then 30
  else 31

/-- Embeds Python's `date.replace(day=1)`. -/
def firstOfMonth (d : Date) : Date := { d with day := 1 }

/-- Embeds `date - timedelta(days=1)` on a valid date: step back within the
month, else to the last day of the previous month, else to December 31 of
the previous year. -/
def predDay (d : Date) : Date :=
  if 1 < d.day then ⟨d.year, d.month, d.day - 1⟩
  else if 1 < d.month then ⟨d.year, d.month - 1, daysInMonth d.year (d.month - 1)⟩
  else ⟨d.year - 1, 12, 31⟩

/-- Embeds the span computation of `get_previous_month_data` (app.py lines
155–159): `last_day = target.replace(day=1) - timedelta(days=1)`;
`first_day = last_day.replace(day=1)`. -/
def prevMonthSpan (d : Date) : Date × Date :=
  let lastDay := predDay (firstOfMonth d)
  (firstOfMonth lastDay, lastDay)

/-- `(y1, m1)` is the calendar month immediately preceding `(y2, m2)`. -/
def monthPrecedes (y1 : ℤ) (m1 : ℕ) (y2 : ℤ) (m2 : ℕ) : Bool :=
  (m2 == 1 && m1 == 12 && y1 == y2 - 1) ||
    (decide (2 ≤ m2) && m1 == m2 - 1 && y1 == y2)

/-! ### Previous-trading-day backward search -/

/-- Backward-search budget (app.py line 23). -/
def MAX_DAYS_BACK : ℕ := 5

/--
Embeds the `while days_back <= MAX_DAYS_BACK and prev_day_data is None` loop
of `main` (app.py lines 562–572) over the list of step counts still to try:
for step `i` the candidate date is `target - (i + 1)`; weekend candidates are
skipped but still consume their iteration; the first successful fetch stops
the search.  `fetch` abstracts `fetch_market_data` restricted to its date
argument (`some` = data found, `none` = no data / holiday).
-/
def searchAux (fetch : ℤ → Option ℕ) (target : ℤ) : List ℕ → Option ℕ
  | [] => none
  | i :: is =>
    let d := target - ((i : ℤ) + 1)
    if isWeekend d then searchAux fetch target is
    else
      match fetch d with
      | some v => some v
      | none => searchAux fetch target is

/-- The previous-day search of `main`: steps `0,…,MAX_DAYS_BACK-1`, i.e.
`days_back = 1,…,MAX_DAYS_BACK`. -/
def prevDaySearch (fetch : ℤ → Option ℕ) (target : ℤ) : Option ℕ :=
  searchAux fetch target (List.range MAX_DAYS_BACK)

/-- The candidate dates the search actually fetches, in the order it visits
them: `target - 1, …, target - maxLookback`, with weekends removed. -/
def prevTradingDayCandidates (target : ℤ) (maxLookback : ℕ) : List ℤ :=
  ((List.range maxLookback).map (fun (i : ℕ) => target - ((i : ℤ) + 1))).filter
    (fun d => !isWeekend d)

/-! ### Circuit breaker (spec-modelled) -/

/-- Modelled from the spec: circuit-breaker status variants (§4.2); the
repository sources under `src/` contain no circuit-breaker code, only the
spec describes it.  No `Normal` variant exists. -/
inductive CBStatus where
  | upper : CBStatus
  | lower : CBStatus
  | unavailable : CBStatus
deriving DecidableEq, Repr

/-- Modelled from the spec: `CIRCUIT_BREAKER_RS_LIMIT = 1` (§4.2, §6). -/
def CIRCUIT_BREAKER_RS_LIMIT : ℚ := 1

/-- Modelled from the spec: `CIRCUIT_BREAKER_PERCENTAGE = 7.5` (§4.2, §6). -/
def CIRCUIT_BREAKER_PERCENTAGE : ℚ := 7.5

/-- Modelled from the spec (§4.2 circuit-breaker steps 1–3):
`limit = max(RS_LIMIT, prev_close * PERCENTAGE / 100)`;
`price_change > limit` → Upper, `price_change < -limit` → Lower, else
Unavailable. -/
def circuitBreakerStatus (todayClose prevClose : ℚ) : CBStatus :=
  let limit := max CIRCUIT_BREAKER_RS_LIMIT
    (prevClose * CIRCUIT_BREAKER_PERCENTAGE / 100)
  let change := todayClose - prevClose
  if change > limit then CBStatus.upper
  else if change < -limit then CBStatus.lower
  else CBStatus.unavailable

/-- Modelled from the spec (§4.2): the circuit breaker is "only computed when
a previous-day row with a valid close exists"; absent that, the emitted
status is Unavailable. -/
def circuitBreakerOfPrev (todayClose : ℚ) (prevClose : Option ℚ) : CBStatus :=
  match prevClose with
  | some p => circuitBreakerStatus todayClose p
  | none => CBStatus.unavailable

/-! ### `fetch_psx` (data_loader.py) -/

/-- One CSV row after the pandas coercions of `fetch_psx`
(data_loader.py lines 19–23): each field holds the result of
`pd.to_datetime(..., errors="coerce")` / `pd.to_numeric(..., errors="coerce")`,
with `none` standing for NaT/NaN (a failed parse).  The date is abstracted
as an integer timestamp. -/
structure CsvRow where
  date : Option ℤ
  openV : Option ℚ
  highV : Option ℚ
  lowV : Option ℚ
  closeV : Option ℚ
  volumeV : Option ℚ
deriving DecidableEq, Repr

/-- One attempt of the retry loop of `fetch_psx`:
`fail` models any raised exception during the attempt (network error, CSV
read error, a `dropna` on a missing column); `resp` models a received
response with its status code, whether `"Date"` occurs in the body, and the
coerced rows of the parsed CSV. -/
inductive FetchAttempt where
  | fail : FetchAttempt
  | resp : ℕ → Bool → List CsvRow → FetchAttempt
deriving DecidableEq, Repr

/-- Embeds the two `dropna` calls of `fetch_psx` (data_loader.py lines 20
and 24): drop rows whose coerced `Date` is NaT, then drop rows whose coerced
`Open`, `Close` or `Volume` is NaN. -/
def processCsv (rows : List CsvRow) : List CsvRow :=
  (rows.filter (fun r => r.date.isSome)).filter
    (fun r => r.openV.isSome && r.closeV.isSome && r.volumeV.isSome)

/-- The `RuntimeError` message raised after the retry loop
(data_loader.py line 30). -/
def runtimeErrorMsg (symbol : String) (retries : ℕ) : String :=
  "Failed to fetch data for symbol: " ++ symbol ++ " after " ++
    toString retries ++ " attempts."

/-- The retry loop of `fetch_psx` (data_loader.py lines 14–30) over the
remaining attempts; `retries` is the original budget, used in the final
error message. -/
def fetchGo (symbol : String) (retries : ℕ) :
    List FetchAttempt → Except String (List CsvRow)
  | [] => Except.error (runtimeErrorMsg symbol retries)
  | a :: rest =>
    match a with
    | FetchAttempt.fail => fetchGo symbol retries rest
    | FetchAttempt.resp status hasDate rows =>
      if status == 200 && hasDate then Except.ok (processCsv rows)
      else fetchGo symbol retries rest

/-- Embeds `fetch_psx`: one `FetchAttempt` per loop iteration, so the attempt
list has length `retries`.  `Except.error` models the raised `RuntimeError`. -/
def fetchPSX (symbol : String) (attempts : List FetchAttempt) :
    Except String (List CsvRow) :=
  fetchGo symbol attempts.length attempts

/-! ### Auxiliary definition and concrete example data

`firstSome` is the specification-side description of what the backward
search visits: the first candidate for which the fetch succeeds.  The `ex…`
rows below are concrete inputs used by witnesses and counterexamples; the
`Row` field order is `symbol, ldcp, openPrice, high, low, close, volume`. -/

/-- First hit of `fetch` along a list of candidate dates. -/
def firstSome (fetch : ℤ → Option ℕ) : List ℤ → Option ℕ
  | [] => none
  | d :: ds =>
    match fetch d with
    | some v => some v
    | none => firstSome fetch ds

/-- Scenario B row: previous-day high 55, low 48. -/
def exRowB : Row :=
  ⟨"ABC", Cell.num 49, Cell.num 50, Cell.num 55, Cell.num 48, Cell.num 50,
    Cell.num 5⟩

/-- A malformed previous-day row with `low > high`: high 10, low 20. -/
def exRowMalformed : Row :=
  ⟨"ABC", Cell.num 100, Cell.num 12, Cell.num 10, Cell.num 20, Cell.num 15,
    Cell.num 5⟩

/-- A malformed window row with `low > high`: high 10, low 20. -/
def exRowWMal : Row :=
  ⟨"XYZ", Cell.num 1, Cell.num 1, Cell.num 10, Cell.num 20, Cell.num 1,
    Cell.num 1⟩

/-- Scenario C window row 1: high 60, low 50. -/
def exRowC1 : Row :=
  ⟨"XYZ", Cell.num 1, Cell.num 1, Cell.num 60, Cell.num 50, Cell.num 1,
    Cell.num 1⟩

/-- Scenario C window row 2: high 62, low 50. -/
def exRowC2 : Row :=
  ⟨"XYZ", Cell.num 1, Cell.num 1, Cell.num 62, Cell.num 50, Cell.num 1,
    Cell.num 1⟩

/-- Scenario C window row 3: high 58, low 50. -/
def exRowC3 : Row :=
  ⟨"XYZ", Cell.num 1, Cell.num 1, Cell.num 58, Cell.num 50, Cell.num 1,
    Cell.num 1⟩

/-- Scenario C window: highs 60, 62, 58 for symbol XYZ. -/
def exWindowC : List Row := [exRowC1, exRowC2, exRowC3]

/-- A previous-day row whose high is a non-empty unparseable string. -/
def exRowBadHigh : Row :=
  ⟨"ABC", Cell.num 100, Cell.num 101, Cell.bad, Cell.num 40, Cell.num 105,
    Cell.num 5⟩

/-- A window row whose high is a non-empty unparseable string. -/
def exRowBadHigh2 : Row :=
  ⟨"XYZ", Cell.num 1, Cell.num 1, Cell.bad, Cell.num 40, Cell.num 1,
    Cell.num 1⟩

/-- A window row whose low is a non-empty unparseable string (high 50). -/
def exRowBadLow : Row :=
  ⟨"XYZ", Cell.num 1, Cell.num 1, Cell.num 50, Cell.bad, Cell.num 1,
    Cell.num 1⟩

/-- A fully parseable today-row: ldcp 100, open 101, high 106, low 99,
close 105, volume 1000. -/
def exRowGood : Row :=
  ⟨"ABC", Cell.num 100, Cell.num 101, Cell.num 106, Cell.num 99,
    Cell.num 105, Cell.num 1000⟩

/-- The record `calculate_breakout_stats` emits for `exRowGood` with all
historical windows absent (daily via LDCP fallback: 105 > 100). -/
def exRecGood : ResultRec :=
  ⟨"ABC", 105, 106, 99, 100, 101, Status.breakout, Status.na, Status.na⟩

/-- A today-row whose close is a non-empty unparseable string. -/
def exRowBadClose : Row :=
  ⟨"ABC", Cell.num 100, Cell.num 101, Cell.num 106, Cell.num 99, Cell.bad,
    Cell.num 5⟩

/-- A placeholder row used only to instantiate universally quantified row
arguments. -/
def exRowDummy : Row :=
  ⟨"ZZZ", Cell.empty, Cell.empty, Cell.empty, Cell.empty, Cell.empty,
    Cell.empty⟩

/-- A fully parsed CSV row for the `fetch_psx` witness. -/
def exCsvRow : CsvRow := ⟨some 0, some 25, some 26, some 24, some 25, some 1000⟩

/-! ## Helper lemmas -/

/-- If any element of the column fails to parse, the whole `.apply`
aggregation raises. -/
theorem mapExcept_error_of_mem (f : α → Except Unit β) (l : List α) (a : α)
    (ha : a ∈ l) (hf : f a = Except.error ()) :
    mapExcept f l = Except.error () := by
  induction l with
  | nil => exact absurd ha (List.not_mem_nil a)
  | cons x xs ih =>
    rcases List.mem_cons.mp ha with h | h
    · subst h
      simp [mapExcept, hf]
    · simp only [mapExcept]
      cases hfx : f x with
      | error e => rfl
      | ok b =>
        rw [ih h]

/-- A successful `.apply` aggregation contains the parse of every element. -/
theorem mapExcept_ok_mem (f : α → Except Unit β) (l : List α) (out : List β)
    (h : mapExcept f l = Except.ok out) (a : α) (ha : a ∈ l) :
    ∃ b ∈ out, f a = Except.ok b := by
  induction l generalizing out with
  | nil => exact absurd ha (List.not_mem_nil a)
  | cons x xs ih =>
    simp only [mapExcept] at h
    cases hfx : f x with
    | error e => rw [hfx] at h; exact absurd h (by simp)
    | ok b =>
      rw [hfx] at h
      cases hrest : mapExcept f xs with
      | error e => rw [hrest] at h; exact absurd h (by simp)
      | ok bs =>
        rw [hrest] at h
        obtain rfl : b :: bs = out := by
          simpa using h
        rcases List.mem_cons.mp ha with hax | hax
        · subst hax
          exact ⟨b, List.mem_cons_self b bs, hfx⟩
        · obtain ⟨y, hy, hfy⟩ := ih bs hrest hax
          exact ⟨y, List.mem_cons_of_mem b hy, hfy⟩

/-- `foldl min` is a lower bound of its seed and of every list element. -/
theorem foldl_min_le (as : List ℚ) (a : ℚ) :
    as.foldl min a ≤ a ∧ ∀ x ∈ as, as.foldl min a ≤ x := by
  induction as generalizing a with
  | nil =>
    exact ⟨le_refl a, by intro x hx; exact absurd hx (List.not_mem_nil x)⟩
  | cons b bs ih =>
    have hseed : bs.foldl min (min a b) ≤ min a b := (ih (min a b)).1
    refine ⟨?_, ?_⟩
    · exact le_trans hseed (min_le_left a b)
    · intro x hx
      rcases List.mem_cons.mp hx with hxb | hxb
      · subst hxb
        exact le_trans hseed (min_le_right a x)
      · exact (ih (min a b)).2 x hxb

/-- `minQ` is a lower bound of every element. -/
theorem minQ_le_of_mem (l : List ℚ) (x : ℚ) (hx : x ∈ l) : minQ l ≤ x := by
  cases l with
  | nil => exact absurd hx (List.not_mem_nil x)
  | cons a as =>
    rcases List.mem_cons.mp hx with h | h
    · subst h
      exact (foldl_min_le as x).1
    · exact (foldl_min_le as a).2 x h

/-! ## Claim theorems -/

/-- C7: `previous_calendar_week_span(reference_date)` returns
`(monday, friday)` with `monday = reference_date - (weekday + 7)` days and
`friday = monday + 4`; the returned monday always has weekday index 0 and
is the Monday of the week immediately preceding the week containing the
reference date (`weekStart d - 7`), with the friday four days later at
weekday index 4. -/
theorem C7_prev_week_span (d : ℤ) :
    prevWeekSpan d = (d - (weekday d + 7), d - (weekday d + 7) + 4) ∧
    weekday (prevWeekSpan d).1 = 0 ∧
    (prevWeekSpan d).1 = weekStart d - 7 ∧
    (prevWeekSpan d).2 = (prevWeekSpan d).1 + 4 ∧
    weekday (prevWeekSpan d).2 = 4 := by
  refine ⟨rfl, ?_, ?_, rfl, ?_⟩ <;>
    simp only [prevWeekSpan, weekday, weekStart] <;> omega

/-- C9: the previous-trading-day search of `main` consults exactly the
candidate dates `target - 1, …, target - MAX_DAYS_BACK` in order with
weekend dates removed (so skipped weekend days still consume the budget),
returning the first successful fetch; every candidate is strictly before
the reference date, at most `MAX_DAYS_BACK = 5` calendar days back, and not
a weekend. -/
theorem C9_prev_trading_day_search (fetch : ℤ → Option ℕ) (target : ℤ) :
    MAX_DAYS_BACK = 5 ∧
    prevDaySearch fetch target =
      firstSome fetch (prevTradingDayCandidates target MAX_DAYS_BACK) ∧
    (prevTradingDayCandidates target MAX_DAYS_BACK).all
      (fun d => decide (target - 5 ≤ d) && decide (d < target) &&
        !isWeekend d) = true := by
  refine ⟨rfl, ?_, ?_⟩
  · show searchAux fetch target (List.range MAX_DAYS_BACK) = _
    rw [prevTradingDayCandidates]
    generalize List.range MAX_DAYS_BACK = is
    induction is with
    | nil => rfl
    | cons i is ih =>
      simp only [searchAux, List.map_cons, List.filter_cons]
      by_cases hw : isWeekend (target - ((i : ℤ) + 1))
      · simp [hw, ih]
      · cases hf : fetch (target - ((i : ℤ) + 1)) with
        | none => simp [hw, hf, ih, firstSome]
        | some v => simp [hw, hf, firstSome]
  · rw [List.all_eq_true]
    intro d hd
    rw [prevTradingDayCandidates, List.mem_filter] at hd
    obtain ⟨hmem, hw⟩ := hd
    rw [List.mem_map] at hmem
    obtain ⟨i, hi, rfl⟩ := hmem
    rw [List.mem_range] at hi
    have hi5 : i < 5 := hi
    rw [hw, Bool.and_true, Bool.and_eq_true, decide_eq_true_eq,
      decide_eq_true_eq]
    omega

/-- C10: for every symbol and every sequence of attempt outcomes,
`fetch_psx` either returns a frame in which every remaining row has a
successfully parsed Date and non-null numeric Open, Close and Volume, or
raises `RuntimeError` after all retry attempts are exhausted; it never
returns rows that failed those parses. -/
theorem C10_fetch_psx (symbol : String) (attempts : List FetchAttempt) :
    (∀ rows, fetchPSX symbol attempts = Except.ok rows →
      ∀ r ∈ rows, r.date.isSome = true ∧ r.openV.isSome = true ∧
        r.closeV.isSome = true ∧ r.volumeV.isSome = true) ∧
    (∀ e, fetchPSX symbol attempts = Except.error e →
      e = runtimeErrorMsg symbol attempts.length) := by
  have key : ∀ (l : List FetchAttempt) (n : ℕ),
      (∀ rows, fetchGo symbol n l = Except.ok rows →
        ∀ r ∈ rows, r.date.isSome = true ∧ r.openV.isSome = true ∧
          r.closeV.isSome = true ∧ r.volumeV.isSome = true) ∧
      (∀ e, fetchGo symbol n l = Except.error e →
        e = runtimeErrorMsg symbol n) := by
    intro l
    induction l with
    | nil =>
      intro n
      constructor
      · intro rows h
        exact absurd h (by simp [fetchGo])
      · intro e h
        simpa [fetchGo] using h.symm
    | cons a rest ih =>
      intro n
      cases a with
      | fail => simpa only [fetchGo] using ih n
      | resp status hasDate rows0 =>
        by_cases hc : (status == 200 && hasDate) = true
        · constructor
          · intro rows h
            simp only [fetchGo, hc, if_true] at h
            obtain rfl : processCsv rows0 = rows := by simpa using h
            intro r hr
            simp only [processCsv, List.mem_filter, Bool.and_eq_true] at hr
            obtain ⟨⟨hmem, hdate⟩, ⟨hopen, hclose⟩, hvol⟩ := hr
            exact ⟨hdate, hopen, hclose, hvol⟩
          · intro e h
            simp [fetchGo, hc] at h
        · constructor
          · intro rows h
            simp only [fetchGo, hc, if_false, Bool.false_eq_true] at h
            exact (ih n).1 rows h
          · intro e h
            simp only [fetchGo, hc, if_false, Bool.false_eq_true] at h
            exact (ih n).2 e h
  exact key attempts attempts.length

/-- C10 witness: one successful attempt with a fully parsed row returns that
row, and its Date, Open, Close and Volume are all present. -/
theorem C10_fetch_psx_witness :
    exCsvRow.date.isSome = true ∧ exCsvRow.openV.isSome = true ∧
      exCsvRow.closeV.isSome = true ∧ exCsvRow.volumeV.isSome = true :=
  (C10_fetch_psx "HBL" [FetchAttempt.resp 200 true [exCsvRow]]).1
    (processCsv [exCsvRow]) rfl exCsvRow (by simp [processCsv, exCsvRow])

/-- C4 (circuit breaker, modelled from the spec — no circuit-breaker code
exists under `src/`): when a previous-day close exists, the status is
`UpperCircuitBreaker` iff the price change exceeds
`max(1, prev_close * 7.5 / 100)`, `LowerCircuitBreaker` iff it falls below
the negated limit, and `Unavailable` otherwise; no `Normal` variant
exists. -/
theorem C4_circuit_breaker (c p : ℚ) (pc : Option ℚ) (hpc : pc = some p) :
    CIRCUIT_BREAKER_RS_LIMIT = 1 ∧ CIRCUIT_BREAKER_PERCENTAGE = 7.5 ∧
    (circuitBreakerOfPrev c pc = CBStatus.upper ↔
      c - p > max CIRCUIT_BREAKER_RS_LIMIT
        (p * CIRCUIT_BREAKER_PERCENTAGE / 100)) ∧
    (circuitBreakerOfPrev c pc = CBStatus.lower ↔
      c - p < -(max CIRCUIT_BREAKER_RS_LIMIT
        (p * CIRCUIT_BREAKER_PERCENTAGE / 100))) ∧
    (circuitBreakerOfPrev c pc = CBStatus.unavailable ↔
      (¬ c - p > max CIRCUIT_BREAKER_RS_LIMIT
          (p * CIRCUIT_BREAKER_PERCENTAGE / 100) ∧
        ¬ c - p < -(max CIRCUIT_BREAKER_RS_LIMIT
          (p * CIRCUIT_BREAKER_PERCENTAGE / 100)))) := by
  subst hpc
  have hL : (1 : ℚ) ≤ max CIRCUIT_BREAKER_RS_LIMIT
      (p * CIRCUIT_BREAKER_PERCENTAGE / 100) := by
    have h1 : CIRCUIT_BREAKER_RS_LIMIT = (1 : ℚ) := rfl
    rw [← h1]
    exact le_max_left _ _
  simp only [circuitBreakerOfPrev, circuitBreakerStatus]
  split_ifs with h1 h2
  · exact ⟨rfl, rfl, iff_of_true rfl h1,
      iff_of_false (by simp) (by intro hlt; linarith),
      iff_of_false (by simp) (fun h => h.1 h1)⟩
  · exact ⟨rfl, rfl, iff_of_false (by simp) h1, iff_of_true rfl h2,
      iff_of_false (by simp) (fun h => h.2 h2)⟩
  · exact ⟨rfl, rfl, iff_of_false (by simp) h1,
      iff_of_false (by simp) h2, iff_of_true rfl ⟨h1, h2⟩⟩

/-- C4 witness (Scenario E): previous close 100, today close 108.5; the
limit is `max(1, 7.5) = 7.5` and the change `8.5` exceeds it, so the status
is `UpperCircuitBreaker`. -/
theorem C4_circuit_breaker_witness :
    circuitBreakerOfPrev (217 / 2) (some 100) = CBStatus.upper :=
  (C4_circuit_breaker (217 / 2) 100 (some 100) rfl).2.2.1.mpr (by
    norm_num [CIRCUIT_BREAKER_RS_LIMIT, CIRCUIT_BREAKER_PERCENTAGE])

/-- C8 counterexample: for reference date 2024-03-15 the span is
(2024-02-01, 2024-02-29), and the returned `last_day` (2024-02-29) is *not*
in the calendar month immediately preceding `first_day`'s month — it lies in
`first_day`'s own month (February), refuting the claim's conjunct
"last_day is in the calendar month immediately preceding first_day's
month". -/
theorem C8_counterexample :
    prevMonthSpan ⟨2024, 3, 15⟩ = (⟨2024, 2, 1⟩, ⟨2024, 2, 29⟩) ∧
    monthPrecedes ((prevMonthSpan ⟨2024, 3, 15⟩).2).year
      ((prevMonthSpan ⟨2024, 3, 15⟩).2).month
      ((prevMonthSpan ⟨2024, 3, 15⟩).1).year
      ((prevMonthSpan ⟨2024, 3, 15⟩).1).month = false := by
  exact ⟨rfl, rfl⟩

/-- C8 amended: `previous_calendar_month_span(reference_date)` returns
`(first_day, last_day)` where `last_day` is the day before the first day of
the reference month, `first_day` is the first of `last_day`'s month (so
`first_day.day == 1`), and `last_day` lies in `first_day`'s own month, which
is the calendar month immediately preceding the *reference date's* month;
concretely, for 2024-03-15 the span is (2024-02-01, 2024-02-29). -/
theorem C8_amended_prev_month_span (d : Date) (h1 : 1 ≤ d.month)
    (h2 : d.month ≤ 12) :
    ((prevMonthSpan d).1).day = 1 ∧
    (prevMonthSpan d).2 = predDay (firstOfMonth d) ∧
    (prevMonthSpan d).1 = firstOfMonth ((prevMonthSpan d).2) ∧
    ((prevMonthSpan d).1).year = ((prevMonthSpan d).2).year ∧
    ((prevMonthSpan d).1).month = ((prevMonthSpan d).2).month ∧
    monthPrecedes ((prevMonthSpan d).1).year ((prevMonthSpan d).1).month
      d.year d.month = true ∧
    prevMonthSpan ⟨2024, 3, 15⟩ = (⟨2024, 2, 1⟩, ⟨2024, 2, 29⟩) := by
  refine ⟨?_, rfl, rfl, rfl, rfl, ?_, rfl⟩
  · simp [prevMonthSpan, firstOfMonth]
  · simp only [prevMonthSpan, firstOfMonth, predDay]
    by_cases hm : 1 < d.month
    · have hne : ¬ (1 : ℕ) < 1 := by omega
      simp only [hne, if_false, hm, if_true, monthPrecedes]
      have h2le : 2 ≤ d.month := hm
      simp only [Bool.or_eq_true, Bool.and_eq_true, beq_iff_eq,
        decide_eq_true_eq]
      right
      simpa using h2le
    · have hm1 : d.month = 1 := by omega
      have hne : ¬ (1 : ℕ) < 1 := by omega
      simp only [hne, if_false, hm1, lt_irrefl, monthPrecedes]
      simp

/-- C8 witness: the amended statement instantiated at reference date
2024-03-15 yields a first day whose day-of-month is 1. -/
theorem C8_amended_witness : ((prevMonthSpan ⟨2024, 3, 15⟩).1).day = 1 :=
  (C8_amended_prev_month_span ⟨2024, 3, 15⟩ (by norm_num) (by norm_num)).1

/-- C1 counterexample: on a malformed previous-day row with high 10 and
low 20 (`low > high`, which nothing in the code validates) and today's
close 15, the code returns Breakout (the `close > prev_high` branch wins),
even though `close < prev_low` holds — so "Breakdown if and only if
`today.close < prev_day.low`" is false as stated. -/
theorem C1_counterexample :
    dailyStatus (some [exRowMalformed]) "ABC" 15 100 = Status.breakout ∧
    parsePrevHL exRowMalformed.high = Except.ok (some 10) ∧
    parsePrevHL exRowMalformed.low = Except.ok (some 20) ∧
    (15 : ℚ) < 20 ∧ Status.breakout ≠ Status.breakdown := by
  refine ⟨rfl, rfl, rfl, by norm_num, by simp⟩

/-- C1 amended: when a previous-day row is found, both its high and low
parse, *and the row is well-formed (`prev_low ≤ prev_high`)*, daily_status
is Breakout iff `close > prev_high`, Breakdown iff `close < prev_low`, and
WithinRange otherwise; in particular `close == prev_high` gives
WithinRange, not Breakout. -/
theorem C1_amended_daily_iff (data : List Row) (sym : String)
    (c ldcp ph pl : ℚ) (r : Row) (rest : List Row)
    (hfind : findRows data sym = r :: rest)
    (hh : parsePrevHL r.high = Except.ok (some ph))
    (hl : parsePrevHL r.low = Except.ok (some pl))
    (hwf : pl ≤ ph) :
    (dailyStatus (some data) sym c ldcp = Status.breakout ↔ c > ph) ∧
    (dailyStatus (some data) sym c ldcp = Status.breakdown ↔ c < pl) ∧
    (dailyStatus (some data) sym c ldcp = Status.withinRange ↔
      (c ≤ ph ∧ pl ≤ c)) ∧
    (c = ph → dailyStatus (some data) sym c ldcp = Status.withinRange) := by
  have hraw : dailyStatus (some data) sym c ldcp =
      (if c > ph then Status.breakout
       else if c < pl then Status.breakdown else Status.withinRange) := by
    simp only [dailyStatus, dailyStatusRaw, hfind, hh, hl]
    split_ifs <;> rfl
  rw [hraw]
  by_cases h1 : c > ph
  · rw [if_pos h1]
    refine ⟨iff_of_true rfl h1, iff_of_false (by simp) ?_,
      iff_of_false (by simp) ?_, ?_⟩
    · intro hlt
      linarith
    · rintro ⟨hle, _⟩
      linarith
    · intro he
      rw [he] at h1
      exact absurd h1 (lt_irrefl ph)
  · rw [if_neg h1]
    by_cases h2 : c < pl
    · rw [if_pos h2]
      refine ⟨iff_of_false (by simp) h1, iff_of_true rfl h2,
        iff_of_false (by simp) ?_, ?_⟩
      · rintro ⟨_, hge⟩
        linarith
      · intro he
        rw [he] at h2
        exact absurd hwf (not_le.mpr h2)
    · rw [if_neg h2]
      push_neg at h1 h2
      exact ⟨iff_of_false (by simp) (not_lt.mpr h1),
        iff_of_false (by simp) (not_lt.mpr h2),
        iff_of_true rfl ⟨h1, h2⟩, fun _ => rfl⟩

/-- C1 witness (Scenario B): previous-day high 55, low 48, close 50
(well-formed row) gives WithinRange. -/
theorem C1_amended_witness :
    dailyStatus (some [exRowB]) "ABC" 50 49 = Status.withinRange :=
  (C1_amended_daily_iff [exRowB] "ABC" 50 49 55 48 exRowB [] rfl rfl rfl
    (by norm_num)).2.2.1.mpr ⟨by norm_num, by norm_num⟩

/-- C2 counterexample: on a malformed window row with high 10 and low 20
(`max high < min low`, which nothing in the code validates) and close 15,
the code returns Breakout (the `close > window_high` branch wins) even
though `close < window_low` holds — so "Breakdown if and only if
`today.close < window_low`" is false as stated. -/
theorem C2_counterexample :
    windowStatus (some [exRowWMal]) "XYZ" 15 = Status.breakout ∧
    mapExcept (fun x => parseWindowHL x.low) [exRowWMal] =
      Except.ok [20] ∧
    (15 : ℚ) < minQ [20] ∧ Status.breakout ≠ Status.breakdown := by
  refine ⟨rfl, rfl, by norm_num [minQ], by simp⟩

/-- C2 amended: when at least one window row matches the symbol, *every
matching row's high and low parse under the window policy*, and the
aggregates are consistent (`min low ≤ max high`), the weekly/monthly status
is Breakout iff `close > window_high`, Breakdown iff `close < window_low`,
and WithinRange otherwise; when no rows match, the status is Unavailable
(`N/A`), with no fallback. -/
theorem C2_amended_window_iff (data : List Row) (sym : String) (c : ℚ)
    (r : Row) (rest : List Row) (highs lows : List ℚ)
    (hfind : findRows data sym = r :: rest)
    (hH : mapExcept (fun x => parseWindowHL x.high) (r :: rest) =
      Except.ok highs)
    (hL : mapExcept (fun x => parseWindowHL x.low) (r :: rest) =
      Except.ok lows)
    (hwf : minQ lows ≤ maxQ highs) :
    (windowStatus (some data) sym c = Status.breakout ↔ c > maxQ highs) ∧
    (windowStatus (some data) sym c = Status.breakdown ↔ c < minQ lows) ∧
    (windowStatus (some data) sym c = Status.withinRange ↔
      (c ≤ maxQ highs ∧ minQ lows ≤ c)) ∧
    (∀ data2, findRows data2 sym = [] →
      windowStatus (some data2) sym c = Status.na) := by
  have hws : windowStatus (some data) sym c =
      (if c > maxQ highs then Status.breakout
       else if c < minQ lows then Status.breakdown
       else Status.withinRange) := by
    simp only [windowStatus, hfind, hH, hL]
  have hna : ∀ data2, findRows data2 sym = [] →
      windowStatus (some data2) sym c = Status.na := by
    intro data2 h2
    simp only [windowStatus, h2]
  rw [hws]
  by_cases h1 : c > maxQ highs
  · rw [if_pos h1]
    refine ⟨iff_of_true rfl h1, iff_of_false (by simp) ?_,
      iff_of_false (by simp) ?_, hna⟩
    · intro hlt
      linarith
    · rintro ⟨hle, _⟩
      linarith
  · rw [if_neg h1]
    by_cases h2 : c < minQ lows
    · rw [if_pos h2]
      refine ⟨iff_of_false (by simp) h1, iff_of_true rfl h2,
        iff_of_false (by simp) ?_, hna⟩
      rintro ⟨_, hge⟩
      linarith
    · rw [if_neg h2]
      push_neg at h1 h2
      exact ⟨iff_of_false (by simp) (not_lt.mpr h1),
        iff_of_false (by simp) (not_lt.mpr h2),
        iff_of_true rfl ⟨h1, h2⟩, hna⟩

/-- C2 witness (Scenario C): window highs 60, 62, 58 and lows 50 for XYZ,
close 65: `65 > max = 62` gives Weekly/Monthly Breakout. -/
theorem C2_amended_witness :
    windowStatus (some exWindowC) "XYZ" 65 = Status.breakout :=
  (C2_amended_window_iff exWindowC "XYZ" 65 exRowC1 [exRowC2, exRowC3]
    [60, 62, 58] [50, 50, 50] rfl rfl rfl (by norm_num [minQ, maxQ])).1.mpr
    (by norm_num [maxQ])

/-- C3 counterexample: previous-day row found for ABC but its high is a
non-empty unparseable string; `float` raises, the `except` branch sets
"– Daily Data Error", and the LDCP fallback does *not* run (it requires the
status to still be `"N/A"`), even though close 105 > ldcp 100 would have
given Breakout under the claimed fallback. -/
theorem C3_counterexample :
    dailyStatus (some [exRowBadHigh]) "ABC" 105 100 = Status.dataError ∧
    (105 : ℚ) > 100 ∧ Status.dataError ≠ Status.breakout := by
  refine ⟨rfl, by norm_num, by simp⟩

/-- C3 amended: daily_status falls back to the LDCP comparison when no
previous-day data exists, when no row matches the symbol, or when a
high/low cell is empty (the `"N/A"` sentinel, produced without raising);
a non-empty unparseable high/low instead raises and yields Data Error with
no fallback.  The fallback itself is: `close > ldcp` → Breakout,
`close < ldcp` → Breakdown, `close == ldcp` → WithinRange. -/
theorem C3_amended_fallback (data : List Row) (sym : String) (c ldcp : ℚ)
    (r : Row) (rest : List Row) :
    (dailyStatus none sym c ldcp = fallbackStatus c ldcp) ∧
    (findRows data sym = [] →
      dailyStatus (some data) sym c ldcp = fallbackStatus c ldcp) ∧
    (findRows data sym = r :: rest →
      ∀ hOpt lOpt, parsePrevHL r.high = Except.ok hOpt →
        parsePrevHL r.low = Except.ok lOpt → (hOpt = none ∨ lOpt = none) →
        dailyStatus (some data) sym c ldcp = fallbackStatus c ldcp) ∧
    (fallbackStatus c ldcp = Status.breakout ↔ c > ldcp) ∧
    (fallbackStatus c ldcp = Status.breakdown ↔ c < ldcp) ∧
    (fallbackStatus c ldcp = Status.withinRange ↔ c = ldcp) := by
  refine ⟨rfl, ?_, ?_, ?_, ?_, ?_⟩
  · intro h
    simp only [dailyStatus, dailyStatusRaw, h]
  · intro h hOpt lOpt hh hl hcase
    simp only [dailyStatus, dailyStatusRaw, h, hh, hl]
    rcases hcase with h0 | h0 <;> subst h0
    · cases lOpt <;> rfl
    · cases hOpt <;> rfl
  · unfold fallbackStatus
    split_ifs with ha hb
    · exact iff_of_true rfl ha
    · exact iff_of_false (by simp) ha
    · exact iff_of_false (by simp) ha
  · unfold fallbackStatus
    split_ifs with ha hb
    · exact iff_of_false (by simp) (lt_asymm ha)
    · exact iff_of_true rfl hb
    · exact iff_of_false (by simp) hb
  · unfold fallbackStatus
    split_ifs with ha hb
    · refine iff_of_false (by simp) ?_
      intro he
      rw [he] at ha
      exact absurd ha (lt_irrefl ldcp)
    · refine iff_of_false (by simp) ?_
      intro he
      rw [he] at hb
      exact absurd hb (lt_irrefl ldcp)
    · exact iff_of_true rfl (le_antisymm (not_lt.mp ha) (not_lt.mp hb))

/-- C3 witness (Scenario A): no previous-day row; close 105 vs ldcp 100
falls back to the LDCP comparison and gives Daily Breakout. -/
theorem C3_amended_witness :
    dailyStatus none "ABC" 105 100 = Status.breakout := by
  have happ := C3_amended_fallback [] "ABC" 105 100 exRowDummy []
  exact happ.1.trans (happ.2.2.2.1.mpr (by norm_num))

/-- C5 counterexample: a matching window row whose low is the unparseable
string is *not* aggregated as 0 — the `.apply` lambda raises (only the
literal `'nan'` maps to 0) and the period's status becomes the error status
"– … Data Error"; under the claim (low contributes 0, so window_high = 50
and close 100 > 50) it would have been Breakout. -/
theorem C5_counterexample :
    windowStatus (some [exRowBadLow]) "XYZ" 100 = Status.dataError ∧
    Status.dataError ≠ Status.breakout := by
  refine ⟨rfl, by simp⟩

/-- C5 amended: in the window aggregation, a matching row whose high/low is
a float NaN (stringifying to `'nan'`) contributes 0 to the max/min — and a
NaN low drags `window_low` down to at most 0 — but any *other* unparseable
high/low (empty or malformed string) raises inside `.apply` and the
period's status becomes Data Error, excluding nothing row-by-row. -/
theorem C5_amended_parse_policy (data : List Row) (sym : String) (c : ℚ)
    (r : Row) (rows : List Row) (lows : List ℚ) :
    (parseWindowHL Cell.nan = Except.ok 0) ∧
    (r ∈ findRows data sym →
      (r.high = Cell.bad ∨ r.high = Cell.empty ∨ r.low = Cell.bad ∨
        r.low = Cell.empty) →
      windowStatus (some data) sym c = Status.dataError) ∧
    (mapExcept (fun x => parseWindowHL x.low) rows = Except.ok lows →
      r ∈ rows → r.low = Cell.nan → 0 ∈ lows ∧ minQ lows ≤ 0) := by
  refine ⟨rfl, ?_, ?_⟩
  · intro hmem hbad
    cases hfr : findRows data sym with
    | nil =>
      rw [hfr] at hmem
      exact absurd hmem (List.not_mem_nil r)
    | cons a as =>
      rw [hfr] at hmem
      have hsplit : (r.high = Cell.bad ∨ r.high = Cell.empty) ∨
          (r.low = Cell.bad ∨ r.low = Cell.empty) := by tauto
      simp only [windowStatus, hfr]
      rcases hsplit with hhigh | hlow
      · have herr : mapExcept (fun x => parseWindowHL x.high) (a :: as) =
            Except.error () := by
          apply mapExcept_error_of_mem _ _ r hmem
          rcases hhigh with h | h <;> rw [h] <;> rfl
        rw [herr]
      · have herr : mapExcept (fun x => parseWindowHL x.low) (a :: as) =
            Except.error () := by
          apply mapExcept_error_of_mem _ _ r hmem
          rcases hlow with h | h <;> rw [h] <;> rfl
        cases hres : mapExcept (fun x => parseWindowHL x.high) (a :: as) with
        | error e => rfl
        | ok hs => rw [herr]
  · intro hmap hmem hnan
    obtain ⟨b, hb, hfb⟩ := mapExcept_ok_mem _ rows lows hmap r hmem
    rw [hnan] at hfb
    have hfb2 : (Except.ok (0 : ℚ) : Except Unit ℚ) = Except.ok b := hfb
    obtain rfl : b = 0 := by simpa using hfb2.symm
    exact ⟨hb, minQ_le_of_mem lows 0 hb⟩

/-- C5 witness: a matching row with an unparseable (non-NaN) high makes the
weekly/monthly status Data Error. -/
theorem C5_amended_witness :
    windowStatus (some [exRowBadHigh2]) "XYZ" 100 = Status.dataError :=
  (C5_amended_parse_policy [exRowBadHigh2] "XYZ" 100 exRowBadHigh2 [] []).2.1
    (List.mem_singleton_self exRowBadHigh2) (Or.inl rfl)

/-- Per-row shape of `calculate_breakout_stats`: when the run completes
without raising, the emitted records are exactly one per input row whose
today-fields parse, in input iteration order. -/
theorem calcStats_ok_symbols (todayData : List Row)
    (pd pw pm : Option (List Row)) (out : List ResultRec)
    (h : calculateBreakoutStats todayData pd pw pm = Except.ok out) :
    out.map (fun rec => rec.symbol) =
      (todayData.filter (fun x => (parseTodayRow x).isSome)).map
        (fun x => x.symbol) := by
  induction todayData generalizing out with
  | nil =>
    simp only [calculateBreakoutStats] at h
    obtain rfl : ([] : List ResultRec) = out := by simpa using h
    simp
  | cons row rest ih =>
    simp only [calculateBreakoutStats] at h
    cases hp : parseTodayRow row with
    | none =>
      rw [hp] at h
      rw [List.filter_cons]
      simp only [hp, Option.isSome_none, Bool.false_eq_true, if_false]
      exact ih out h
    | some v =>
      rw [hp] at h
      obtain ⟨c1, c2, c3, c4⟩ := v
      cases ho : parseToday row.openPrice with
      | none =>
        rw [ho] at h
        exact absurd h (by simp)
      | some o =>
        rw [ho] at h
        cases hrec : calculateBreakoutStats rest pd pw pm with
        | error e =>
          rw [hrec] at h
          exact absurd h (by simp)
        | ok tail =>
          rw [hrec] at h
          obtain rfl : _ :: tail = out := by simpa using h
          rw [List.filter_cons]
          simp only [hp, Option.isSome_some, if_true]
          rw [List.map_cons, List.map_cons]
          exact congrArg (fun t => row.symbol :: t) (ih tail hrec)

/-- C6 counterexample: symbol ABC is in the metadata and has no futures
suffix, and is present in today's snapshot, but its CLOSE cell is
unparseable, so the `try` block raises and the loop `continue`s: the run
emits *zero* records for it, not exactly one. -/
theorem C6_counterexample :
    exRowBadClose.symbol = "ABC" ∧
    isValidSymbol exRowBadClose.symbol ["ABC"] = true ∧
    runPipeline [exRowBadClose] ["ABC"] none none none =
      Except.ok ([] : List ResultRec) := by
  refine ⟨rfl, rfl, rfl⟩

/-- C6 amended: when the run completes without raising (an unparseable OPEN
aborts the whole run), the output contains exactly one record per snapshot
row that passes the symbol-validity filter *and* whose numeric fields
(close/high/low/ldcp/volume) parse, and these records appear in input
iteration order; rows whose numeric parse fails are skipped. -/
theorem C6_amended_one_record (snapshot : List Row)
    (symbolsData : List String) (pd pw pm : Option (List Row))
    (out : List ResultRec)
    (h : runPipeline snapshot symbolsData pd pw pm = Except.ok out) :
    out.map (fun rec => rec.symbol) =
      ((snapshot.filter (fun x => isValidSymbol x.symbol symbolsData)).filter
        (fun x => (parseTodayRow x).isSome)).map (fun x => x.symbol) :=
  calcStats_ok_symbols
    (snapshot.filter (fun x => isValidSymbol x.symbol symbolsData))
    pd pw pm out h

/-- C6 witness: a valid, fully parseable snapshot row yields exactly its one
record, in order. -/
theorem C6_amended_witness :
    [exRecGood].map (fun rec => rec.symbol) =
      (([exRowGood].filter (fun x => isValidSymbol x.symbol ["ABC"])).filter
        (fun x => (parseTodayRow x).isSome)).map (fun x => x.symbol) :=
  C6_amended_one_record [exRowGood] ["ABC"] none none none [exRecGood] rfl

end PSX
